import Mathlib

/-!
Verification development for the HappyVille booking data-access layer
(src/.github/wwwroot/js/firebase-service.js).

The JavaScript class `FirebaseService` wraps a hosted document store
(collections `bookings`, `availability`, `activities`, `admins`) and an
identity provider.  We embed it shallowly:

* the remote store and the identity-provider session become an explicit
  state `St`;
* each `await`ed store or auth call becomes a primitive in a monad `M`
  that threads the state, an exception channel (JavaScript `throw`), and
  a failure oracle injecting external store failures (network errors and
  the like) so that the try/catch behaviour can be stated for every
  store outcome;
* documents are association lists of fields, mirroring the JavaScript
  object-spread semantics used by the source;
* the interleaving behaviour of concurrent `updateAvailability` calls is
  modelled separately by a small scheduler over the suspension points
  (the `await`s) of that method.
-/

/-- A field value of a stored document: strings, numbers, and `Date`
timestamps (modelled as logical clock values). -/
inductive FVal where
  | str : String → FVal
  | int : Int → FVal
  | time : Nat → FVal
deriving Repr, DecidableEq

/-- A stored document: an association list of named fields, in key order
(JavaScript objects preserve insertion order). -/
abbrev Doc := List (String × FVal)

/-- A slot counter inside an availability document.  `total` is optional
because the dotted-path increment in `updateAvailability` can create a
slot object holding only `booked`. -/
structure Slot where
  booked : Int
  total : Option Int
deriving Repr, DecidableEq

/-- An availability document: `set` writes `{ date, slots }`. -/
structure AvailDoc where
  date : String
  slots : List (String × Slot)
deriving Repr, DecidableEq

/-- The external world visible to the service: the four store collections,
the identity provider accounts, the current session, the id generator for
`bookings.add`, and the current wall-clock time (for `new Date()`). -/
structure St where
  bookings : List (String × Doc)
  availability : List (String × AvailDoc)
  activities : List (String × Doc)
  admins : List String
  validUsers : List (String × String)
  currentUser : Option String
  nextId : Nat
  now : Nat
deriving Repr, DecidableEq

/-- Association-list lookup (`collection.doc(k).get`, field access). -/
def lookupA (k : String) : List (String × α) → Option α
  | [] => none
  | (k₁, v) :: rest => if k₁ = k then some v else lookupA k rest

/-- Association-list overwrite-or-append: the semantics of a document
`set`, and of one field assignment in an object spread. -/
def setA (k : String) (v : α) : List (String × α) → List (String × α)
  | [] => [(k, v)]
  | (k₁, v₁) :: rest => if k₁ = k then (k, v) :: rest else (k₁, v₁) :: setA k v rest

/-- Outcome of a computation: a value, or a thrown JavaScript error. -/
inductive Res (α : Type) where
  | ok : α → Res α
  | err : String → Res α
deriving Repr, DecidableEq

/-- The failure oracle: at each external call, `none` lets the call
proceed and `some msg` makes the store/provider fail with `msg`.  The
empty list means every remaining call proceeds. -/
abbrev Oracle := List (Option String)

/-- The effect monad of the embedding: state, exceptions, and the
failure oracle. -/
def M (α : Type) := St → Oracle → Res α × St × Oracle

/-- Return (a JavaScript expression that does not throw). -/
def mpure (a : α) : M α := fun s o => (.ok a, s, o)

/-- Sequencing; a thrown error propagates (no further code runs). -/
def mbind (m : M α) (f : α → M β) : M β := fun s o =>
  match m s o with
  | (.ok a, s₁, o₁) => f a s₁ o₁
  | (.err e, s₁, o₁) => (.err e, s₁, o₁)

/-- JavaScript `try { m } catch (error) { h error }`: effects performed
before the throw persist. -/
def tryCatchM (m : M α) (h : String → M α) : M α := fun s o =>
  match m s o with
  | (.ok a, s₁, o₁) => (.ok a, s₁, o₁)
  | (.err e, s₁, o₁) => h e s₁ o₁

/-- An external (store or identity-provider) call: the oracle may inject
a failure; otherwise the call behaves as `f`. -/
def prim (f : St → Res α × St) : M α := fun s o =>
  match o with
  | [] => (match f s with | (r, s₁) => (r, s₁, []))
  | none :: o₁ => (match f s with | (r, s₁) => (r, s₁, o₁))
  | some e :: o₁ => (.err e, s, o₁)

/-- The uniform result envelope `{success: true, ...payload}` /
`{success: false, error}` returned by the service methods. -/
inductive EV (α : Type) where
  | success : α → EV α
  | failure : String → EV α
deriving Repr, DecidableEq

/-! ### Store and identity-provider primitives -/

/-- Document id assigned by `bookings.add` for generation counter `n`. -/
def genId (n : Nat) : String := "b" ++ toString n

/-- `this.db.collection('bookings').add(doc)`. -/
def bookingsAdd (doc : Doc) : M String :=
  prim (fun s => (.ok (genId s.nextId),
    { s with bookings := s.bookings ++ [(genId s.nextId, doc)], nextId := s.nextId + 1 }))

/-- The `createdAt` sort key used by `orderBy('createdAt', 'desc')`. -/
def createdAtKey (doc : Doc) : Nat :=
  match lookupA "createdAt" doc with
  | some (.time n) => n
  | _ => 0

/-- Insert into a list sorted by `createdAt` descending. -/
def insertDesc (p : String × Doc) : List (String × Doc) → List (String × Doc)
  | [] => [p]
  | q :: rest =>
    if createdAtKey q.2 ≤ createdAtKey p.2 then p :: q :: rest else q :: insertDesc p rest

/-- Sort by `createdAt` descending (the order of the query snapshot). -/
def sortByCreatedAtDesc : List (String × Doc) → List (String × Doc)
  | [] => []
  | p :: rest => insertDesc p (sortByCreatedAtDesc rest)

/-- `bookings.orderBy('createdAt', 'desc').get()`, each snapshot entry
paired with its document id. -/
def bookingsQueryAll : M (List (String × Doc)) :=
  prim (fun s => (.ok (sortByCreatedAtDesc s.bookings), s))

/-- `bookings.where('date', '==', date).get()`. -/
def bookingsQueryByDate (date : String) : M (List (String × Doc)) :=
  prim (fun s =>
    (.ok (s.bookings.filter (fun p => decide (lookupA "date" p.2 = some (.str date)))), s))

/-- Merge of an update object into a stored document (`update` applies
each field of the object in order). -/
def mergeDoc (doc : Doc) (updates : Doc) : Doc :=
  updates.foldl (fun d p => setA p.1 p.2 d) doc

/-- `bookings.doc(id).update(updates)`: merging update, which fails when
the document does not exist. -/
def bookingDocUpdate (id : String) (updates : Doc) : M Unit :=
  prim (fun s =>
    match lookupA id s.bookings with
    | some doc => (.ok (), { s with bookings := setA id (mergeDoc doc updates) s.bookings })
    | none => (.err "No document to update", s))

/-- `bookings.doc(id).delete()`: removes the document; deleting a missing
document succeeds. -/
def bookingDocDelete (id : String) : M Unit :=
  prim (fun s =>
    (.ok (), { s with bookings := s.bookings.filter (fun p => decide (¬ p.1 = id)) }))

/-- `activities.get()` snapshot. -/
def activitiesQueryAll : M (List (String × Doc)) :=
  prim (fun s => (.ok s.activities, s))

/-- `availability.doc(date).get()`: `none` when `doc.exists` is false. -/
def availGet (date : String) : M (Option AvailDoc) :=
  prim (fun s => (.ok (lookupA date s.availability), s))

/-- `availability.doc(date).set(doc)`: overwrites the whole document. -/
def availSet (date : String) (doc : AvailDoc) : M Unit :=
  prim (fun s => (.ok (), { s with availability := setA date doc s.availability }))

/-- Effect of `FieldValue.increment(change)` at path
`slots.<time>.booked`: a missing slot object or field is created holding
the operand. -/
def incSlot (time : String) (change : Int) (slots : List (String × Slot)) :
    List (String × Slot) :=
  match lookupA time slots with
  | some sl => setA time { sl with booked := sl.booked + change } slots
  | none => setA time { booked := change, total := none } slots

/-- `availability.doc(date).update({[slots.time.booked]: increment(change)})`:
fails when the document does not exist. -/
def availIncrement (date time : String) (change : Int) : M Unit :=
  prim (fun s =>
    match lookupA date s.availability with
    | some ad =>
      (.ok (),
        { s with
          availability :=
            setA date { ad with slots := incSlot time change ad.slots } s.availability })
    | none => (.err "No document to update", s))

/-- `auth.signInWithEmailAndPassword`: on acceptance the session becomes
the given email and the user record is returned; otherwise the provider
rejects. -/
def signIn (email password : String) : M String :=
  prim (fun s =>
    if (email, password) ∈ s.validUsers then
      (.ok email, { s with currentUser := some email })
    else (.err "auth/invalid-credential", s))

/-- `auth.signOut()`. -/
def signOut : M Unit :=
  prim (fun s => (.ok (), { s with currentUser := none }))

/-- `admins.where('email', '==', email).get()` followed by the `.empty`
test: returns whether the query snapshot is empty. -/
def adminsQueryEmpty (email : String) : M Bool :=
  prim (fun s => (.ok (decide (¬ email ∈ s.admins)), s))

/-- `this.auth.currentUser`: a synchronous SDK property read, not an
external call, so it does not consult the oracle. -/
def getCurrentUser : M (Option String) := fun s o => (.ok s.currentUser, s, o)

/-- `new Date()`: reads the clock; synchronous, no external call. -/
def getNow : M Nat := fun s o => (.ok s.now, s, o)

/-! ### The service methods -/

/-- `hour.toString().padStart(2, '0')`. -/
def pad2 (n : Nat) : String :=
  if n < 10 then "0" ++ toString n else toString n

/-- `generateDefaultSlots()`: one slot per hour 9..18, each
`{booked: 0, total: 100}`. -/
def generateDefaultSlots : List (String × Slot) :=
  (List.range' 9 10).map (fun hour =>
    (pad2 hour ++ ":00", ({ booked := 0, total := some 100 } : Slot)))

/-- `updateAvailability(date, time, change)`. -/
def updateAvailability (date time : String) (change : Int) : M (EV Unit) :=
  tryCatchM
    (mbind (availGet date) (fun d =>
      mbind
        (if d.isNone then availSet date { date := date, slots := generateDefaultSlots }
         else mpure ())
        (fun _ =>
          mbind (availIncrement date time change) (fun _ =>
            mpure (EV.success ())))))
    (fun e => mpure (EV.failure e))

/-- `getAvailability(date)`. -/
def getAvailability (date : String) : M (EV (List (String × Slot))) :=
  tryCatchM
    (mbind (availGet date) (fun d =>
      match d with
      | some doc => mpure (EV.success doc.slots)
      | none =>
        mbind (availSet date { date := date, slots := generateDefaultSlots }) (fun _ =>
          mpure (EV.success generateDefaultSlots))))
    (fun e => mpure (EV.failure e))

/-- `bookingData.date` as a string (the typed reading of the field). -/
def getStrField (doc : Doc) (k : String) : String :=
  match lookupA k doc with
  | some (.str v) => v
  | _ => ""

/-- `bookingData.kids` as a number (the typed reading of the field). -/
def getIntField (doc : Doc) (k : String) : Int :=
  match lookupA k doc with
  | some (.int v) => v
  | _ => 0

/-- The document inserted by `createBooking`:
`{...bookingData, status: 'pending', createdAt: now, updatedAt: now}`. -/
def newBookingDoc (bookingData : Doc) (now : Nat) : Doc :=
  setA "updatedAt" (.time now)
    (setA "createdAt" (.time now)
      (setA "status" (.str "pending") bookingData))

/-- `createBooking(bookingData)`. -/
def createBooking (bookingData : Doc) : M (EV String) :=
  tryCatchM
    (mbind getNow (fun now =>
      mbind (bookingsAdd (newBookingDoc bookingData now)) (fun id =>
        mbind
          (updateAvailability (getStrField bookingData "date")
            (getStrField bookingData "time")
            (getIntField bookingData "kids" + getIntField bookingData "adults"))
          (fun _ => mpure (EV.success id)))))
    (fun e => mpure (EV.failure e))

/-- `getAllBookings()`. -/
def getAllBookings : M (EV (List (String × Doc))) :=
  tryCatchM
    (mbind bookingsQueryAll (fun bs => mpure (EV.success bs)))
    (fun e => mpure (EV.failure e))

/-- `getBookingsByDate(date)`. -/
def getBookingsByDate (date : String) : M (EV (List (String × Doc))) :=
  tryCatchM
    (mbind (bookingsQueryByDate date) (fun bs => mpure (EV.success bs)))
    (fun e => mpure (EV.failure e))

/-- `updateBooking(bookingId, updates)`: the update object is
`{...updates, updatedAt: new Date()}`. -/
def updateBooking (bookingId : String) (updates : Doc) : M (EV Unit) :=
  tryCatchM
    (mbind getNow (fun now =>
      mbind (bookingDocUpdate bookingId (setA "updatedAt" (.time now) updates)) (fun _ =>
        mpure (EV.success ()))))
    (fun e => mpure (EV.failure e))

/-- `deleteBooking(bookingId)`. -/
def deleteBooking (bookingId : String) : M (EV Unit) :=
  tryCatchM
    (mbind (bookingDocDelete bookingId) (fun _ => mpure (EV.success ())))
    (fun e => mpure (EV.failure e))

/-- `getActivities()`. -/
def getActivities : M (EV (List (String × Doc))) :=
  tryCatchM
    (mbind activitiesQueryAll (fun acts => mpure (EV.success acts)))
    (fun e => mpure (EV.failure e))

/-- `adminLogin(email, password)`. -/
def adminLogin (email password : String) : M (EV String) :=
  tryCatchM
    (mbind (signIn email password) (fun user =>
      mbind (adminsQueryEmpty email) (fun empty =>
        if !empty then mpure (EV.success user)
        else mbind signOut (fun _ => mpure (EV.failure "Not an admin user")))))
    (fun e => mpure (EV.failure e))

/-- `adminLogout()`. -/
def adminLogout : M (EV Unit) :=
  tryCatchM
    (mbind signOut (fun _ => mpure (EV.success ())))
    (fun e => mpure (EV.failure e))

/-- `isAdmin()`: note the absence of try/catch in the source. -/
def isAdmin : M Bool :=
  mbind getCurrentUser (fun user =>
    match user with
    | none => mpure false
    | some email =>
      mbind (adminsQueryEmpty email) (fun empty => mpure (!empty)))

/-- The `booked` counter recorded for a date and time slot; 0 when the
availability document or the slot entry is absent. -/
def bookedCount (s : St) (date time : String) : Int :=
  match lookupA date s.availability with
  | some ad =>
    match lookupA time ad.slots with
    | some sl => sl.booked
    | none => 0
  | none => 0

/-! ### Interleaving model of concurrent `updateAvailability` calls

One call suspends exactly at its `await`s: the document `get`, the
conditional default `set`, and the increment `update`.  The code between
two `await`s runs synchronously, so a scheduler can switch between
concurrent calls only at those points.  All calls target the same date
document, whose current value is the shared state. -/

/-- Progress of one in-flight `updateAvailability` call, identified by
the next `await` it will perform: `start` is about to `get`; `needSet`
saw a missing document and is about to `set` the defaults; `needInc` is
about to apply the increment `update`; `finished` has returned. -/
inductive UPhase where
  | start
  | needSet
  | needInc
  | finished
deriving Repr, DecidableEq

/-- A configuration of concurrent calls for one date: the availability
document for that date (if it exists) and the phase of each call. -/
structure CCfg where
  avail : Option (List (String × Slot))
  threads : List UPhase
deriving Repr, DecidableEq

/-- One scheduler step: call `i` performs its next `await`ed operation
and runs synchronously to its next suspension point.  An index that is
out of range or names a finished call does nothing. -/
def schedStep (time : String) (change : Int) (cfg : CCfg) (i : Nat) : CCfg :=
  match cfg.threads.get? i with
  | none => cfg
  | some .start =>
    { cfg with
      threads := cfg.threads.set i (if cfg.avail.isSome then .needInc else .needSet) }
  | some .needSet =>
    { avail := some generateDefaultSlots, threads := cfg.threads.set i .needInc }
  | some .needInc =>
    match cfg.avail with
    | some sl =>
      { avail := some (incSlot time change sl), threads := cfg.threads.set i .finished }
    | none => { cfg with threads := cfg.threads.set i .finished }
  | some .finished => cfg

/-- Run a whole schedule (a list of call indices). -/
def runSched (time : String) (change : Int) : List Nat → CCfg → CCfg
  | [], cfg => cfg
  | i :: rest, cfg => runSched time change rest (schedStep time change cfg i)

/-- The `booked` counter of the shared document in a configuration. -/
def bookedOf (time : String) (cfg : CCfg) : Int :=
  match cfg.avail with
  | some sl =>
    match lookupA time sl with
    | some x => x.booked
    | none => 0
  | none => 0

/-- Whether every concurrent call has run to completion. -/
def allFinished (cfg : CCfg) : Bool :=
  cfg.threads.all (fun ph => ph == UPhase.finished)

/-- The initial configuration: `n` calls yet to start, the document for
the date as found in the store. -/
def initCfg (avail : Option (List (String × Slot))) (n : Nat) : CCfg :=
  ⟨avail, List.replicate n UPhase.start⟩

/-- The state transformation performed by a successful
`updateAvailability date time change` call (no failure injected):
get-or-create of the availability document followed by the increment. -/
def updAvailState (date time : String) (change : Int) (s : St) : St :=
  match lookupA date s.availability with
  | some ad =>
    { s with
      availability :=
        setA date { ad with slots := incSlot time change ad.slots } s.availability }
  | none =>
    { s with
      availability :=
        setA date ⟨date, incSlot time change generateDefaultSlots⟩ s.availability }

/-- Number of finished calls in a thread list. -/
def countFin (l : List UPhase) : Nat :=
  l.countP (fun ph => ph == UPhase.finished)

/-- Invariant of the interleaving model when the availability document
already existed at the start: the document stays present, no call is in
the default-set phase, the number of calls is stable, and the counter
equals its initial value plus one increment per finished call. -/
def concInv (time : String) (change : Int) (b₀ : Int) (n : Nat) (cfg : CCfg) : Prop :=
  cfg.avail.isSome = true ∧
  ¬ UPhase.needSet ∈ cfg.threads ∧
  cfg.threads.length = n ∧
  bookedOf time cfg = b₀ + (countFin cfg.threads : Int) * change

/-- A concrete store state used to instantiate the theorems: empty
collections, one identity-provider account, no session. -/
def sampleSt : St :=
  { bookings := []
    availability := []
    activities := []
    admins := []
    validUsers := [("user@happyville.example", "pw123")]
    currentUser := none
    nextId := 0
    now := 1700000000 }

/-- A concrete booking input used to instantiate the theorems. -/
def sampleData : Doc :=
  [("name", FVal.str "Ada"), ("date", FVal.str "2025-06-01"),
   ("time", FVal.str "09:00"), ("kids", FVal.int 2), ("adults", FVal.int 1)]

/-! ### Basic lemmas about the store primitives -/

theorem lookupA_setA_self (k : String) (v : α) (l : List (String × α)) :
    lookupA k (setA k v l) = some v := by
  induction l with
  | nil => simp [setA, lookupA]
  | cons p rest ih =>
    obtain ⟨k₁, v₁⟩ := p
    by_cases h : k₁ = k <;> simp [setA, lookupA, h, ih]

theorem lookupA_setA_ne (k k₁ : String) (v : α) (l : List (String × α))
    (h : ¬ k₁ = k) : lookupA k (setA k₁ v l) = lookupA k l := by
  have h' : ¬ k = k₁ := fun hk => h hk.symm
  induction l with
  | nil => simp [setA, lookupA, h, h']
  | cons p rest ih =>
    obtain ⟨k₂, v₂⟩ := p
    by_cases h₂ : k₂ = k₁
    · subst h₂; simp [setA, lookupA, h, h', ih]
    · by_cases h₃ : k₂ = k <;> simp [setA, lookupA, h₂, h₃, h, h', ih]

theorem setA_setA (k : String) (v w : α) (l : List (String × α)) :
    setA k v (setA k w l) = setA k v l := by
  induction l with
  | nil => simp [setA]
  | cons p rest ih =>
    obtain ⟨k₁, v₁⟩ := p
    by_cases h : k₁ = k <;> simp [setA, h, ih]

theorem lookupA_mem {k : String} {l : List (String × α)} {v : α}
    (hl : lookupA k l = some v) : (k, v) ∈ l := by
  induction l with
  | nil => simp [lookupA] at hl
  | cons p rest ih =>
    obtain ⟨k₁, v₁⟩ := p
    rw [lookupA] at hl
    by_cases h : k₁ = k
    · rw [if_pos h] at hl
      cases hl
      subst h
      exact List.mem_cons_self _ _
    · rw [if_neg h] at hl
      exact List.mem_cons_of_mem _ (ih hl)

theorem lookupA_defaultSlots {t : String} {sl : Slot}
    (h : lookupA t generateDefaultSlots = some sl) : sl = ⟨0, some 100⟩ := by
  have hmem := lookupA_mem h
  have hall : ∀ p ∈ generateDefaultSlots, p.2 = (⟨0, some 100⟩ : Slot) := by decide
  exact hall _ hmem

theorem tryCatchM_ok (m : M (EV α)) (s : St) (o : Oracle) :
    ∃ env s₁ o₁, tryCatchM m (fun e => mpure (EV.failure e)) s o = (Res.ok env, s₁, o₁) := by
  rcases h : m s o with ⟨r, s₁, o₁⟩
  cases r with
  | ok a => exact ⟨a, s₁, o₁, by simp [tryCatchM, h]⟩
  | err e => exact ⟨EV.failure e, s₁, o₁, by simp [tryCatchM, h, mpure]⟩

theorem tryCatchM_envelope (m : M (EV α)) (s : St) (o : Oracle) :
    ∃ env, (tryCatchM m (fun e => mpure (EV.failure e)) s o).1 = Res.ok env := by
  obtain ⟨env, s₁, o₁, h⟩ := tryCatchM_ok m s o
  exact ⟨env, by rw [h]⟩

theorem lookupA_append (k : String) (l₁ l₂ : List (String × α))
    (h : lookupA k l₁ = none) : lookupA k (l₁ ++ l₂) = lookupA k l₂ := by
  induction l₁ with
  | nil => simp
  | cons p rest ih =>
    obtain ⟨k₁, v₁⟩ := p
    rw [lookupA] at h
    by_cases hk : k₁ = k
    · rw [if_pos hk] at h; cases h
    · rw [if_neg hk] at h
      simp only [List.cons_append, lookupA, if_neg hk]
      exact ih h

theorem lookupA_incSlot_booked (time : String) (change : Int)
    (slots : List (String × Slot)) :
    ∃ sl, lookupA time (incSlot time change slots) = some sl ∧
      sl.booked =
        (match lookupA time slots with | some s₀ => s₀.booked | none => 0) + change := by
  cases h : lookupA time slots with
  | none => exact ⟨⟨change, none⟩, by simp [incSlot, h, lookupA_setA_self]⟩
  | some s₀ => exact ⟨⟨s₀.booked + change, s₀.total⟩, by simp [incSlot, h, lookupA_setA_self]⟩

theorem defaultSlots_booked (time : String) :
    (match lookupA time generateDefaultSlots with | some s₀ => s₀.booked | none => 0) = 0 := by
  cases h : lookupA time generateDefaultSlots with
  | none => rfl
  | some sl => rw [lookupA_defaultSlots h]

theorem updateAvailability_run (date time : String) (change : Int) (s : St) :
    updateAvailability date time change s [] =
      (Res.ok (EV.success ()), updAvailState date time change s, []) := by
  cases h : lookupA date s.availability with
  | none =>
    simp [updateAvailability, updAvailState, tryCatchM, mbind, mpure, availGet, availSet,
      availIncrement, prim, h, lookupA_setA_self, setA_setA]
  | some ad =>
    simp [updateAvailability, updAvailState, tryCatchM, mbind, mpure, availGet, availSet,
      availIncrement, prim, h, lookupA_setA_self, setA_setA]

theorem updAvailState_bookings (date time : String) (change : Int) (s : St) :
    (updAvailState date time change s).bookings = s.bookings := by
  cases h : lookupA date s.availability <;> simp [updAvailState, h]

theorem updAvailState_frame (date time : String) (change : Int) (s : St) (d₁ : String)
    (h₁ : ¬ date = d₁) :
    lookupA d₁ (updAvailState date time change s).availability =
      lookupA d₁ s.availability := by
  cases h : lookupA date s.availability <;>
    simp [updAvailState, h, lookupA_setA_ne _ _ _ _ h₁]

theorem bookedCount_updAvailState (date time : String) (change : Int) (s : St) :
    bookedCount (updAvailState date time change s) date time =
      bookedCount s date time + change := by
  cases h : lookupA date s.availability with
  | none =>
    obtain ⟨sl, hsl, hb⟩ := lookupA_incSlot_booked time change generateDefaultSlots
    simp [updAvailState, bookedCount, h, lookupA_setA_self, hsl, hb, defaultSlots_booked]
  | some ad =>
    obtain ⟨sl, hsl, hb⟩ := lookupA_incSlot_booked time change ad.slots
    simp [updAvailState, bookedCount, h, lookupA_setA_self, hsl, hb]

theorem mem_insertDesc {p q : String × Doc} {l : List (String × Doc)} :
    q ∈ insertDesc p l ↔ q = p ∨ q ∈ l := by
  induction l with
  | nil => simp [insertDesc]
  | cons x xs ih =>
    rw [insertDesc]
    split
    · simp
    · simp only [List.mem_cons, ih]
      tauto

theorem mem_sortByCreatedAtDesc {q : String × Doc} {l : List (String × Doc)} :
    q ∈ sortByCreatedAtDesc l ↔ q ∈ l := by
  induction l with
  | nil => simp [sortByCreatedAtDesc]
  | cons x xs ih => simp [sortByCreatedAtDesc, mem_insertDesc, ih]

theorem countP_set_get (p : UPhase → Bool) (l : List UPhase) (i : Nat) (a b : UPhase)
    (h : l.get? i = some a) :
    (l.set i b).countP p + (if p a then 1 else 0) =
      l.countP p + (if p b then 1 else 0) := by
  induction l generalizing i with
  | nil => simp at h
  | cons x xs ih =>
    cases i with
    | zero =>
      rw [List.get?_cons_zero] at h
      cases h
      simp [List.countP_cons]
      omega
    | succ j =>
      rw [List.get?_cons_succ] at h
      have hj := ih j h
      simp only [List.set_cons_succ, List.countP_cons]
      omega

theorem concInv_schedStep (time : String) (change : Int) (b₀ : Int) (n : Nat)
    (cfg : CCfg) (i : Nat) (h : concInv time change b₀ n cfg) :
    concInv time change b₀ n (schedStep time change cfg i) := by
  obtain ⟨hsome, hns, hlen, hbook⟩ := h
  obtain ⟨sl, hsl⟩ := Option.isSome_iff_exists.mp hsome
  cases hget : cfg.threads.get? i with
  | none =>
    simp only [schedStep, hget]
    exact ⟨hsome, hns, hlen, hbook⟩
  | some ph =>
    cases ph with
    | start =>
      have hcnt := countP_set_get (fun ph => ph == UPhase.finished) cfg.threads i
        UPhase.start UPhase.needInc hget
      simp only [schedStep, hget, hsome, if_true]
      refine ⟨hsome, ?_, ?_, ?_⟩
      · intro hmem
        rcases List.mem_or_eq_of_mem_set hmem with hm | he
        · exact hns hm
        · cases he
      · simpa using hlen
      · simp only [bookedOf, countFin] at hbook ⊢
        simp at hcnt
        rw [hcnt]
        exact hbook
    | needSet => exact absurd (List.get?_mem hget) hns
    | needInc =>
      have hcnt := countP_set_get (fun ph => ph == UPhase.finished) cfg.threads i
        UPhase.needInc UPhase.finished hget
      simp only [schedStep, hget, hsl]
      obtain ⟨sl₁, hsl₁, hb₁⟩ := lookupA_incSlot_booked time change sl
      refine ⟨by simp, ?_, ?_, ?_⟩
      · intro hmem
        rcases List.mem_or_eq_of_mem_set hmem with hm | he
        · exact hns hm
        · cases he
      · simpa using hlen
      · simp only [bookedOf, countFin, hsl] at hbook ⊢
        simp only [hsl₁, hb₁]
        simp at hcnt
        rw [hcnt]
        push_cast
        rw [hbook]
        ring
    | finished =>
      simp only [schedStep, hget]
      exact ⟨hsome, hns, hlen, hbook⟩

theorem concInv_runSched (time : String) (change : Int) (b₀ : Int) (n : Nat)
    (sched : List Nat) (cfg : CCfg) (h : concInv time change b₀ n cfg) :
    concInv time change b₀ n (runSched time change sched cfg) := by
  induction sched generalizing cfg with
  | nil => exact h
  | cons i rest ih => exact ih _ (concInv_schedStep time change b₀ n cfg i h)

/-! ### The claims -/

/-- C1: for every date with no prior availability document, calling
updateAvailability(d, 09:00, +5) and then getAvailability(d) returns a
slot map in which the 09:00 slot has booked = 5: the written increment
is read back by the subsequent get. -/
theorem C1_increment_read_back (s : St) (d : String)
    (h : lookupA d s.availability = none) :
    ∃ slots sl,
      (getAvailability d (updateAvailability d "09:00" 5 s []).2.1 []).1 =
        Res.ok (EV.success slots) ∧
      lookupA "09:00" slots = some sl ∧ sl.booked = 5 := by
  rw [updateAvailability_run]
  refine ⟨incSlot "09:00" 5 generateDefaultSlots, ⟨5, some 100⟩, ?_, by decide, rfl⟩
  simp [getAvailability, tryCatchM, mbind, mpure, availGet, prim, updAvailState, h,
    lookupA_setA_self]

theorem C1_increment_read_back_witness :
    lookupA "2025-06-01" sampleSt.availability = none ∧
    ∃ slots sl,
      (getAvailability "2025-06-01"
          (updateAvailability "2025-06-01" "09:00" 5 sampleSt []).2.1 []).1 =
        Res.ok (EV.success slots) ∧
      lookupA "09:00" slots = some sl ∧ sl.booked = 5 :=
  ⟨rfl, C1_increment_read_back sampleSt "2025-06-01" rfl⟩

/-- C2: for every date with no availability document, getAvailability
returns a success envelope whose slot map is the default map of exactly
10 entries keyed 09:00 through 18:00, each with booked = 0 and
total = 100, and persists that same default map under the date. -/
theorem C2_fresh_date_defaults (s : St) (date : String)
    (h : lookupA date s.availability = none) :
    (getAvailability date s []).1 = Res.ok (EV.success generateDefaultSlots) ∧
    lookupA date (getAvailability date s []).2.1.availability =
      some ⟨date, generateDefaultSlots⟩ ∧
    generateDefaultSlots =
      [("09:00", ⟨0, some 100⟩), ("10:00", ⟨0, some 100⟩), ("11:00", ⟨0, some 100⟩),
       ("12:00", ⟨0, some 100⟩), ("13:00", ⟨0, some 100⟩), ("14:00", ⟨0, some 100⟩),
       ("15:00", ⟨0, some 100⟩), ("16:00", ⟨0, some 100⟩), ("17:00", ⟨0, some 100⟩),
       ("18:00", ⟨0, some 100⟩)] := by
  refine ⟨?_, ?_, by decide⟩ <;>
    simp [getAvailability, tryCatchM, mbind, mpure, availGet, availSet, prim, h,
      lookupA_setA_self]

theorem C2_fresh_date_defaults_witness :
    lookupA "2025-06-01" sampleSt.availability = none ∧
    ((getAvailability "2025-06-01" sampleSt []).1 =
        Res.ok (EV.success generateDefaultSlots) ∧
      lookupA "2025-06-01" (getAvailability "2025-06-01" sampleSt []).2.1.availability =
        some ⟨"2025-06-01", generateDefaultSlots⟩ ∧
      generateDefaultSlots =
        [("09:00", ⟨0, some 100⟩), ("10:00", ⟨0, some 100⟩), ("11:00", ⟨0, some 100⟩),
         ("12:00", ⟨0, some 100⟩), ("13:00", ⟨0, some 100⟩), ("14:00", ⟨0, some 100⟩),
         ("15:00", ⟨0, some 100⟩), ("16:00", ⟨0, some 100⟩), ("17:00", ⟨0, some 100⟩),
         ("18:00", ⟨0, some 100⟩)]) :=
  ⟨rfl, C2_fresh_date_defaults sampleSt "2025-06-01" rfl⟩

/-- C3: createBooking inserts a booking whose status is pending
regardless of any caller-supplied status field, with createdAt and
updatedAt both set to the current time; it increments the availability
counter of the bookings (date, time) slot by kids + adults; on success
it returns a success envelope with the new identifier, and when the
insert fails it returns a failure envelope with the underlying message.
The freshness hypothesis reflects that the store assigns an unused
document id. -/
theorem C3_createBooking_spec (s : St) (data : Doc) (d t : String) (k a : Int)
    (hd : lookupA "date" data = some (.str d))
    (ht : lookupA "time" data = some (.str t))
    (hk : lookupA "kids" data = some (.int k))
    (ha : lookupA "adults" data = some (.int a))
    (hfresh : lookupA (genId s.nextId) s.bookings = none) :
    (createBooking data s []).1 = Res.ok (EV.success (genId s.nextId)) ∧
    lookupA (genId s.nextId) (createBooking data s []).2.1.bookings =
      some (newBookingDoc data s.now) ∧
    lookupA "status" (newBookingDoc data s.now) = some (.str "pending") ∧
    lookupA "createdAt" (newBookingDoc data s.now) = some (.time s.now) ∧
    lookupA "updatedAt" (newBookingDoc data s.now) = some (.time s.now) ∧
    bookedCount (createBooking data s []).2.1 d t = bookedCount s d t + (k + a) ∧
    (∀ e, (createBooking data s [some e]).1 = Res.ok (EV.failure e)) := by
  have hrun : createBooking data s [] =
      (Res.ok (EV.success (genId s.nextId)),
        updAvailState d t (k + a)
          { s with
            bookings := s.bookings ++ [(genId s.nextId, newBookingDoc data s.now)],
            nextId := s.nextId + 1 },
        []) := by
    simp [createBooking, tryCatchM, mbind, mpure, getNow, bookingsAdd, prim,
      getStrField, getIntField, hd, ht, hk, ha, updateAvailability_run]
  refine ⟨by rw [hrun], ?_, ?_, ?_, ?_, ?_, ?_⟩
  · rw [hrun]
    show lookupA (genId s.nextId) (updAvailState d t (k + a) _).bookings = _
    rw [updAvailState_bookings]
    show lookupA (genId s.nextId)
      (s.bookings ++ [(genId s.nextId, newBookingDoc data s.now)]) = _
    rw [lookupA_append _ _ _ hfresh]
    simp [lookupA]
  · rw [newBookingDoc, lookupA_setA_ne _ _ _ _ (by decide),
      lookupA_setA_ne _ _ _ _ (by decide), lookupA_setA_self]
  · rw [newBookingDoc, lookupA_setA_ne _ _ _ _ (by decide), lookupA_setA_self]
  · rw [newBookingDoc, lookupA_setA_self]
  · rw [hrun]
    show bookedCount (updAvailState d t (k + a) _) d t = _
    rw [bookedCount_updAvailState]
    simp [bookedCount]
  · intro e
    simp [createBooking, tryCatchM, mbind, mpure, getNow, bookingsAdd, prim]

theorem C3_createBooking_spec_witness :
    lookupA "date" sampleData = some (FVal.str "2025-06-01") ∧
    lookupA "time" sampleData = some (FVal.str "09:00") ∧
    lookupA "kids" sampleData = some (FVal.int 2) ∧
    lookupA "adults" sampleData = some (FVal.int 1) ∧
    lookupA (genId sampleSt.nextId) sampleSt.bookings = none ∧
    ((createBooking sampleData sampleSt []).1 =
        Res.ok (EV.success (genId sampleSt.nextId)) ∧
      lookupA (genId sampleSt.nextId) (createBooking sampleData sampleSt []).2.1.bookings =
        some (newBookingDoc sampleData sampleSt.now) ∧
      lookupA "status" (newBookingDoc sampleData sampleSt.now) =
        some (FVal.str "pending") ∧
      lookupA "createdAt" (newBookingDoc sampleData sampleSt.now) =
        some (FVal.time sampleSt.now) ∧
      lookupA "updatedAt" (newBookingDoc sampleData sampleSt.now) =
        some (FVal.time sampleSt.now) ∧
      bookedCount (createBooking sampleData sampleSt []).2.1 "2025-06-01" "09:00" =
        bookedCount sampleSt "2025-06-01" "09:00" + (2 + 1) ∧
      (∀ e, (createBooking sampleData sampleSt [some e]).1 = Res.ok (EV.failure e))) :=
  ⟨by decide, by decide, by decide, by decide, by decide,
    C3_createBooking_spec sampleSt sampleData "2025-06-01" "09:00" 2 1
      (by decide) (by decide) (by decide) (by decide) (by decide)⟩

/-- C4: when the identity provider accepts the credentials but the email
has no record in the admins collection, adminLogin signs the session out
and returns a failure envelope with error message Not an admin user, and
a subsequent isAdmin call returns false because no session remains. -/
theorem C4_adminLogin_not_admin (s : St) (email pw : String)
    (hcred : (email, pw) ∈ s.validUsers)
    (hadmin : ¬ email ∈ s.admins) :
    (adminLogin email pw s []).1 = Res.ok (EV.failure "Not an admin user") ∧
    (adminLogin email pw s []).2.1.currentUser = none ∧
    (isAdmin (adminLogin email pw s []).2.1 []).1 = Res.ok false := by
  have hrun : adminLogin email pw s [] =
      (Res.ok (EV.failure "Not an admin user"), { s with currentUser := none }, []) := by
    simp [adminLogin, tryCatchM, mbind, mpure, signIn, adminsQueryEmpty, signOut, prim,
      hcred, hadmin]
  rw [hrun]
  exact ⟨rfl, rfl, by simp [isAdmin, mbind, mpure, getCurrentUser]⟩

theorem C4_adminLogin_not_admin_witness :
    ("user@happyville.example", "pw123") ∈ sampleSt.validUsers ∧
    ¬ "user@happyville.example" ∈ sampleSt.admins ∧
    ((adminLogin "user@happyville.example" "pw123" sampleSt []).1 =
        Res.ok (EV.failure "Not an admin user") ∧
      (adminLogin "user@happyville.example" "pw123" sampleSt []).2.1.currentUser = none ∧
      (isAdmin (adminLogin "user@happyville.example" "pw123" sampleSt []).2.1 []).1 =
        Res.ok false) :=
  ⟨by decide, by decide,
    C4_adminLogin_not_admin sampleSt "user@happyville.example" "pw123"
      (by decide) (by decide)⟩

/-- C5: deleteBooking removes the record, so its id no longer appears in
the result of getAllBookings, and it leaves the availability collection
completely unchanged (no booked counter is decremented or modified). -/
theorem C5_deleteBooking_frame (s : St) (id : String) :
    (deleteBooking id s []).1 = Res.ok (EV.success ()) ∧
    (deleteBooking id s []).2.1.availability = s.availability ∧
    ∃ bs, (getAllBookings (deleteBooking id s []).2.1 []).1 = Res.ok (EV.success bs) ∧
      ¬ id ∈ bs.map Prod.fst := by
  have hrun : deleteBooking id s [] =
      (Res.ok (EV.success ()),
        { s with bookings := s.bookings.filter (fun p => decide (¬ p.1 = id)) }, []) := by
    simp [deleteBooking, tryCatchM, mbind, mpure, bookingDocDelete, prim]
  rw [hrun]
  refine ⟨rfl, rfl,
    sortByCreatedAtDesc (s.bookings.filter (fun p => decide (¬ p.1 = id))), ?_, ?_⟩
  · simp [getAllBookings, tryCatchM, mbind, mpure, bookingsQueryAll, prim]
  · intro hmem
    simp only [List.mem_map] at hmem
    obtain ⟨q, hq, hq1⟩ := hmem
    rw [mem_sortByCreatedAtDesc] at hq
    have hf := List.of_mem_filter hq
    simp at hf
    exact hf hq1

/-- C6: updating a booking with a status of confirmed changes only the
status field and the updatedAt timestamp of that record; every other
field keeps its value, every other record is untouched, and the
availability collection is not modified. -/
theorem C6_updateBooking_frame (s : St) (id : String) (doc : Doc)
    (h : lookupA id s.bookings = some doc) :
    (updateBooking id [("status", FVal.str "confirmed")] s []).1 =
      Res.ok (EV.success ()) ∧
    (updateBooking id [("status", FVal.str "confirmed")] s []).2.1.availability =
      s.availability ∧
    lookupA id (updateBooking id [("status", FVal.str "confirmed")] s []).2.1.bookings =
      some (setA "updatedAt" (FVal.time s.now) (setA "status" (FVal.str "confirmed") doc)) ∧
    lookupA "status"
        (setA "updatedAt" (FVal.time s.now) (setA "status" (FVal.str "confirmed") doc)) =
      some (FVal.str "confirmed") ∧
    lookupA "updatedAt"
        (setA "updatedAt" (FVal.time s.now) (setA "status" (FVal.str "confirmed") doc)) =
      some (FVal.time s.now) ∧
    (∀ f, ¬ f = "status" → ¬ f = "updatedAt" →
      lookupA f
          (setA "updatedAt" (FVal.time s.now) (setA "status" (FVal.str "confirmed") doc)) =
        lookupA f doc) ∧
    (∀ id₁, ¬ id₁ = id →
      lookupA id₁
          (updateBooking id [("status", FVal.str "confirmed")] s []).2.1.bookings =
        lookupA id₁ s.bookings) := by
  have hrun : updateBooking id [("status", FVal.str "confirmed")] s [] =
      (Res.ok (EV.success ()),
        { s with
          bookings := setA id
            (setA "updatedAt" (FVal.time s.now) (setA "status" (FVal.str "confirmed") doc))
            s.bookings }, []) := by
    simp [updateBooking, tryCatchM, mbind, mpure, getNow, bookingDocUpdate, prim, h,
      mergeDoc, setA]
  refine ⟨by rw [hrun], by rw [hrun], ?_, ?_, ?_, ?_, ?_⟩
  · rw [hrun]
    exact lookupA_setA_self _ _ _
  · rw [lookupA_setA_ne _ _ _ _ (by decide), lookupA_setA_self]
  · exact lookupA_setA_self _ _ _
  · intro f hf1 hf2
    rw [lookupA_setA_ne _ _ _ _ (fun hh => hf2 hh.symm),
      lookupA_setA_ne _ _ _ _ (fun hh => hf1 hh.symm)]
  · intro id₁ hne
    rw [hrun]
    exact lookupA_setA_ne _ _ _ _ (fun hh => hne hh.symm)

theorem C6_updateBooking_frame_witness :
    lookupA "b0" ({ sampleSt with bookings := [("b0", sampleData)] } : St).bookings =
      some sampleData ∧
    ((updateBooking "b0" [("status", FVal.str "confirmed")]
          { sampleSt with bookings := [("b0", sampleData)] } []).1 =
        Res.ok (EV.success ()) ∧
      (updateBooking "b0" [("status", FVal.str "confirmed")]
          { sampleSt with bookings := [("b0", sampleData)] } []).2.1.availability =
        ({ sampleSt with bookings := [("b0", sampleData)] } : St).availability ∧
      lookupA "b0"
          (updateBooking "b0" [("status", FVal.str "confirmed")]
            { sampleSt with bookings := [("b0", sampleData)] } []).2.1.bookings =
        some (setA "updatedAt"
          (FVal.time ({ sampleSt with bookings := [("b0", sampleData)] } : St).now)
          (setA "status" (FVal.str "confirmed") sampleData)) ∧
      lookupA "status"
          (setA "updatedAt"
            (FVal.time ({ sampleSt with bookings := [("b0", sampleData)] } : St).now)
            (setA "status" (FVal.str "confirmed") sampleData)) =
        some (FVal.str "confirmed") ∧
      lookupA "updatedAt"
          (setA "updatedAt"
            (FVal.time ({ sampleSt with bookings := [("b0", sampleData)] } : St).now)
            (setA "status" (FVal.str "confirmed") sampleData)) =
        some (FVal.time ({ sampleSt with bookings := [("b0", sampleData)] } : St).now) ∧
      (∀ f, ¬ f = "status" → ¬ f = "updatedAt" →
        lookupA f
            (setA "updatedAt"
              (FVal.time ({ sampleSt with bookings := [("b0", sampleData)] } : St).now)
              (setA "status" (FVal.str "confirmed") sampleData)) =
          lookupA f sampleData) ∧
      (∀ id₁, ¬ id₁ = "b0" →
        lookupA id₁
            (updateBooking "b0" [("status", FVal.str "confirmed")]
              { sampleSt with bookings := [("b0", sampleData)] } []).2.1.bookings =
          lookupA id₁
            ({ sampleSt with bookings := [("b0", sampleData)] } : St).bookings)) :=
  ⟨by decide,
    C6_updateBooking_frame { sampleSt with bookings := [("b0", sampleData)] } "b0"
      sampleData (by decide)⟩

/-- C7: every booking CRUD operation, for every starting state and every
store outcome (any injected failure at any of its external calls),
returns an outcome envelope normally: the result is never a propagated
exception. -/
theorem C7_crud_envelopes (s : St) (o : Oracle) (data updates : Doc) (id date : String) :
    (∃ env, (createBooking data s o).1 = Res.ok env) ∧
    (∃ env, (getAllBookings s o).1 = Res.ok env) ∧
    (∃ env, (getBookingsByDate date s o).1 = Res.ok env) ∧
    (∃ env, (updateBooking id updates s o).1 = Res.ok env) ∧
    (∃ env, (deleteBooking id s o).1 = Res.ok env) :=
  ⟨tryCatchM_envelope _ s o, tryCatchM_envelope _ s o, tryCatchM_envelope _ s o,
   tryCatchM_envelope _ s o, tryCatchM_envelope _ s o⟩

/-- C8: isAdmin returns a plain boolean, not an envelope: when its
lookup succeeds it returns true exactly when a session is active and
the session email has a record in the admins collection, and false
otherwise, in particular when no session exists. -/
theorem C8_isAdmin_boolean (s : St) :
    ∃ b, (isAdmin s []).1 = Res.ok b ∧
      (b = true ↔ ∃ email, s.currentUser = some email ∧ email ∈ s.admins) := by
  cases hu : s.currentUser with
  | none =>
    refine ⟨false, ?_, ?_⟩
    · simp [isAdmin, mbind, mpure, getCurrentUser, hu]
    · simp [hu]
  | some email =>
    by_cases hmem : email ∈ s.admins
    · refine ⟨true, ?_, ?_⟩
      · simp [isAdmin, mbind, mpure, getCurrentUser, adminsQueryEmpty, prim, hu, hmem]
      · simp [hu, hmem]
    · refine ⟨false, ?_, ?_⟩
      · simp [isAdmin, mbind, mpure, getCurrentUser, adminsQueryEmpty, prim, hu, hmem]
      · simp [hu, hmem]

/-- C9, counterexample to the claim as stated: two concurrent
updateAvailability(d, 09:00, +1) calls on a date with no prior
availability document can complete with booked = 1 rather than 2: the
schedule lets both calls observe the missing document, and the second
default-slot set overwrites the first calls already-applied increment.
The lost update comes from the non-atomic get-or-create that precedes
the atomic increment. -/
theorem C9_lost_update_counterexample :
    allFinished (runSched "09:00" 1 [0, 1, 0, 0, 1, 1] (initCfg none 2)) = true ∧
    ¬ bookedOf "09:00" (runSched "09:00" 1 [0, 1, 0, 0, 1, 1] (initCfg none 2)) = 2 := by
  decide

/-- C9 as amended: when the availability document for the date already
exists, every complete interleaving of n concurrent
updateAvailability(d, t, +1) calls leaves booked equal to its prior
value plus n: the server-side increment itself is atomic, so no update
is lost once the get-or-create cannot trigger. -/
theorem C9_concurrent_increments (t : String) (sl₀ : List (String × Slot)) (n : Nat)
    (sched : List Nat)
    (hfin : allFinished (runSched t 1 sched (initCfg (some sl₀) n)) = true) :
    bookedOf t (runSched t 1 sched (initCfg (some sl₀) n)) =
      bookedOf t (initCfg (some sl₀) n) + n := by
  have hinit : concInv t 1 (bookedOf t (initCfg (some sl₀) n)) n (initCfg (some sl₀) n) := by
    refine ⟨rfl, ?_, ?_, ?_⟩
    · intro hmem
      cases (List.mem_replicate.mp hmem).2
    · simp [initCfg]
    · have hz : countFin (List.replicate n UPhase.start) = 0 := by
        refine List.countP_eq_zero.mpr ?_
        intro a ha
        rw [List.eq_of_mem_replicate ha]
        decide
      simp [initCfg, hz]
  have hinv := concInv_runSched t 1 (bookedOf t (initCfg (some sl₀) n)) n sched
    (initCfg (some sl₀) n) hinit
  obtain ⟨hsome, hns, hlen, hbook⟩ := hinv
  have hall := List.all_eq_true.mp hfin
  have hcount : countFin (runSched t 1 sched (initCfg (some sl₀) n)).threads =
      (runSched t 1 sched (initCfg (some sl₀) n)).threads.length := by
    rw [countFin, List.countP_eq_length]
    exact fun a ha => hall a ha
  rw [hbook, hcount, hlen]
  ring

theorem C9_concurrent_increments_witness :
    allFinished (runSched "09:00" 1 [0, 0, 1, 1]
        (initCfg (some generateDefaultSlots) 2)) = true ∧
    bookedOf "09:00" (runSched "09:00" 1 [0, 0, 1, 1]
        (initCfg (some generateDefaultSlots) 2)) =
      bookedOf "09:00" (initCfg (some generateDefaultSlots) 2) + 2 :=
  ⟨by decide,
    C9_concurrent_increments "09:00" generateDefaultSlots 2 [0, 0, 1, 1] (by decide)⟩

/-- C10: whenever the booking insert succeeds (the first external call
is not failed by the oracle), createBooking returns a success envelope
with the new identifier regardless of what happens afterwards: the
inner updateAvailability call catches its own store failures and
returns an envelope instead of throwing, and createBooking ignores that
envelope. -/
theorem C10_availability_failure_ignored (s : St) (data : Doc) (o : Oracle) :
    (∀ d t c (s₁ : St) (o₁ : Oracle),
      ∃ env, (updateAvailability d t c s₁ o₁).1 = Res.ok env) ∧
    (createBooking data s (none :: o)).1 = Res.ok (EV.success (genId s.nextId)) := by
  have hA : ∀ d t c (s₁ : St) (o₁ : Oracle),
      ∃ env s₂ o₂, updateAvailability d t c s₁ o₁ = (Res.ok env, s₂, o₂) :=
    fun d t c s₁ o₁ => tryCatchM_ok _ s₁ o₁
  refine ⟨fun d t c s₁ o₁ => tryCatchM_envelope _ s₁ o₁, ?_⟩
  obtain ⟨env, s₂, o₂, heq⟩ := hA (getStrField data "date") (getStrField data "time")
    (getIntField data "kids" + getIntField data "adults")
    { s with
      bookings := s.bookings ++ [(genId s.nextId, newBookingDoc data s.now)],
      nextId := s.nextId + 1 } o
  simp [createBooking, tryCatchM, mbind, mpure, getNow, bookingsAdd, prim, heq]
